import Mathlib

/-!
Verification of the jax-omeroutils batch-import pipeline against its
natural-language specification.  The Python modules are shallowly embedded:
file contents are byte lists, directories are name lists, metadata rows are
association lists from column name to an optional string cell (a `none` cell
models a pandas NaN float, whose `str()` is the string "nan"), and the
external md5 digest is an abstract function parameter.
-/

set_option maxRecDepth 4096

/-- Byte contents of a file (`hashlib.md5` consumes the raw bytes; the digest
itself is abstracted as a function parameter `hash : Content → Nat`, so every
theorem below holds for the real md5 as a special case). -/
def Content : Type := List Nat

instance : DecidableEq Content := by
  unfold Content
  infer_instance

/-- State of the two filesystem locations `file_mover` touches: the contents
at the source path and the contents at the destination copy path (`none`
means the path does not exist). -/
structure MoveState where
  src : Option Content
  dest : Option Content
deriving DecidableEq

/-- Outcome of one iteration of the retry loop in
`datamover.file_mover` (src/jax_omeroutils/datamover.py, lines 39-51):
either the destination directory is absent after `os.makedirs` so the
`destination_dir.exists()` guard skips the copy, or `shutil.copy` lands
contents `c` at the destination (`c` may differ from the source bytes,
which is exactly the corruption the md5 comparison detects).  OS errors
raised by `makedirs`/`copy` propagate out of the Python function and are
outside this model. -/
inductive Outcome where
  | noDir
  | copied (c : Content)
deriving DecidableEq

/-- True when attempt `i` delivers destination contents whose digest equals
the digest of the source bytes (the equality `calculate_md5(file_path) ==
calculate_md5(dest_file)` on line 44 of datamover.py). -/
def digestMatch (hash : Content → Nat) (attempt : Nat → Outcome)
    (srcC : Content) (i : Nat) : Bool :=
  match attempt i with
  | Outcome.noDir => false
  | Outcome.copied c => hash c == hash srcC

/-- Retry loop of `file_mover`: `for i in range(tries)`.  On a digest match
the source file is removed (`os.remove(file_path)`, line 45) and the
destination path is returned; on a mismatch the corrupted destination copy
is removed (`os.remove(dest_file)`, line 51) and the loop continues; when
the loop exhausts its attempts the function logs and returns `None`
(lines 52-53). -/
def moveLoop (hash : Content → Nat) (attempt : Nat → Outcome)
    (fname ddir : String) (srcC : Content) :
    Nat → Nat → MoveState → Option String × MoveState
  | _, 0, s => (none, s)
  | i, fuel + 1, s =>
    match attempt i with
    | Outcome.noDir => moveLoop hash attempt fname ddir srcC (i + 1) fuel s
    | Outcome.copied c =>
      if hash c = hash srcC then
        (some (ddir ++ "/" ++ fname), { src := none, dest := some c })
      else
        moveLoop hash attempt fname ddir srcC (i + 1) fuel { s with dest := none }

/-- Embedding of `datamover.file_mover(file_path, destination_dir, tries=3)`
(src/jax_omeroutils/datamover.py, lines 32-53).  When the source path does
not exist the `if file_path.exists()` guard skips the loop and the function
returns `None` leaving the state untouched. -/
def file_mover (hash : Content → Nat) (attempt : Nat → Outcome)
    (fname ddir : String) (s : MoveState) (tries : Nat := 3) :
    Option String × MoveState :=
  match s.src with
  | none => (none, s)
  | some srcC => moveLoop hash attempt fname ddir srcC 0 tries s

/-- Whether any of the attempts `i, i+1, …, i+fuel-1` yields a digest
match; mirrors the iteration structure of the retry loop. -/
def observesFrom (hash : Content → Nat) (attempt : Nat → Outcome)
    (srcC : Content) : Nat → Nat → Bool
  | _, 0 => false
  | i, fuel + 1 =>
    digestMatch hash attempt srcC i || observesFrom hash attempt srcC (i + 1) fuel

/-- Metadata row as produced by `pandas.DataFrame.to_dict(orient="records")`:
an association list from column name to cell value.  A `some s` cell is a
string cell; a `none` cell models a NaN float left by pandas in a
non-required column (Python renders it as the string "nan" under `str`). -/
def Row : Type := List (String × Option String)

instance : DecidableEq Row := by
  unfold Row
  infer_instance

/-- Python `str()` of a cell value: strings map to themselves and the NaN
float renders as "nan". -/
def pyStr : Option String → String
  | some s => s
  | none => "nan"

/-- Dictionary access `row[k]` totalized: a missing key is conflated with a
NaN cell (Python would raise `KeyError`; the guarded call sites below only
reach this access when the key is present in the first row of the table). -/
def cell (r : Row) (k : String) : Option String :=
  (r.lookup k).getD none

/-- Index of the last occurrence of `c` in the character list, if any. -/
def lastIdxOf (c : Char) : List Char → Option Nat
  | [] => none
  | x :: xs =>
    match lastIdxOf c xs with
    | some i => some (i + 1)
    | none => if x = c then some 0 else none

/-- Splits a character list at every occurrence of `c` (the separators are
dropped); always returns at least one (possibly empty) chunk. -/
def splitOnChar (c : Char) : List Char → List (List Char)
  | [] => [[]]
  | x :: xs =>
    match splitOnChar c xs with
    | [] => [[]]
    | h :: t => if x = c then [] :: h :: t else (x :: h) :: t

/-- Whether `pat` is a prefix of `l`, character by character. -/
def leadsWith : List Char → List Char → Bool
  | _, [] => true
  | [], _ :: _ => false
  | a :: as, b :: bs => a = b && leadsWith as bs

/-- Embedding of Python `str.endswith`. -/
def strEndsWith (s pat : String) : Bool :=
  leadsWith s.toList.reverse pat.toList.reverse

/-- Embedding of `pathlib.PurePath.suffix`: the substring of the final path
component from its last dot, provided that dot is neither the leading
character nor the final character of the component; otherwise the empty
string. -/
def pathSuffix (p : String) : String :=
  let name := (splitOnChar '/' p.toList).getLastD p.toList
  match lastIdxOf '.' name with
  | none => ""
  | some i => if 0 < i ∧ i < name.length - 1 then String.mk (name.drop i) else ""

/-- One move attempt performed by `DataMover.move_data`
(src/jax_omeroutils/datamover.py, lines 99-147): a primary import-target
move (carrying the filename cell of the metadata row), an auxiliary
fileset-file move (carrying the stripped path line), or the final
`import.json` manifest move. -/
inductive MoveEvent where
  | targetMove (f : Option String)
  | auxMove (p : String)
  | manifestMove
deriving DecidableEq

def isTargetE : MoveEvent → Bool
  | MoveEvent.targetMove _ => true
  | _ => false

def isAuxE : MoveEvent → Bool
  | MoveEvent.auxMove _ => true
  | _ => false

/-- First loop of `move_data` (lines 104-117): one `file_mover` call per
entry of `import_targets`, in metadata table order. -/
def targetsLoop : List Row → List MoveEvent
  | [] => []
  | t :: rest => MoveEvent.targetMove (cell t "filename") :: targetsLoop rest

/-- Second loop of `move_data` (lines 119-135): one `file_mover` call per
line of the fileset list, skipping lines whose suffix is `.log` or `.xlsx`
(sidecar log and spreadsheet files are never moved). -/
def auxLoop : List String → List MoveEvent
  | [] => []
  | l :: rest =>
    let fp := l.trim
    if pathSuffix fp = ".log" ∨ pathSuffix fp = ".xlsx" then auxLoop rest
    else MoveEvent.auxMove fp :: auxLoop rest

/-- Sequence of move attempts issued by one `DataMover.move_data` call:
the import-target loop runs to completion, then the fileset loop, then the
single manifest move of `import.json` (line 138). -/
def move_trace (impTargets : List Row) (filesetList : List String) : List MoveEvent :=
  targetsLoop impTargets ++ auxLoop filesetList ++ [MoveEvent.manifestMove]

/-- Decimal digit character. -/
def digitCh : Nat → Char
  | 0 => '0'
  | 1 => '1'
  | 2 => '2'
  | 3 => '3'
  | 4 => '4'
  | 5 => '5'
  | 6 => '6'
  | 7 => '7'
  | 8 => '8'
  | _ => '9'

/-- Fuel-indexed decimal rendering (the fuel `n + 1` always suffices). -/
def natCharsAux : Nat → Nat → List Char
  | 0, _ => []
  | fuel + 1, n =>
    if n < 10 then [digitCh n]
    else natCharsAux fuel (n / 10) ++ [digitCh (n % 10)]

/-- Python `str(n)` for a natural number, used for the synthetic object ids
interpolated in the xml_editor module. -/
def natStr (n : Nat) : String :=
  String.mk (natCharsAux (n + 1) n)

/-- Embedding of `intake.find_md_file(import_directory)`
(src/jax_omeroutils/intake.py, lines 26-73): scan the top-level entries of
the import directory, collect those whose pathlib suffix ends with the
string "xlsx" (`f.suffix.endswith("xlsx")`, line 61), and return the unique
hit; zero hits or more than one hit log an error and return `None`. -/
def find_md_file (entries : List String) : Option String :=
  let md_files := entries.filter (fun f => strEndsWith (pathSuffix f) "xlsx")
  if md_files.length = 0 then none
  else if 1 < md_files.length then none
  else md_files.head?

/-- File handed to `load_md_from_file`: a path name and whether a file is
present at that path. -/
structure PFile where
  name : String
  present : Bool
deriving DecidableEq

/-- Result of the guard section of `intake.load_md_from_file`
(src/jax_omeroutils/intake.py, lines 96-107): `retNone` models the `None`
passthrough for a missing metadata file, `errNotFound` the raised
`FileNotFoundError`, `errValue` the raised `ValueError("File suffix must
be xlsx")`, and `parsed` the fall-through into the pandas spreadsheet
parsing, which is external library code outside this model. -/
inductive LoadOutcome where
  | retNone
  | errNotFound
  | errValue
  | parsed
deriving DecidableEq

/-- Embedding of the guards of `intake.load_md_from_file(md_filepath)`
(src/jax_omeroutils/intake.py, lines 96-107): `None` input returns `None`;
a non-existing path raises `FileNotFoundError`; a suffix different from
".xlsx" raises `ValueError`; otherwise the function proceeds to parse the
spreadsheet. -/
def load_md_from_file (f : Option PFile) : LoadOutcome :=
  match f with
  | none => LoadOutcome.retNone
  | some fi =>
    if fi.present = false then LoadOutcome.errNotFound
    else if pathSuffix fi.name ≠ ".xlsx" then LoadOutcome.errValue
    else LoadOutcome.parsed

/-- One problem logged by `ImportBatch.validate_import_md`
(src/jax_omeroutils/intake.py, lines 292-354): a required column missing
from a row, a blank (empty or "nan") value in a required column, or
duplicate filenames across the table. -/
inductive VErr where
  | missingColumn (c : String)
  | emptyValue (c : String)
  | duplicateFilenames
deriving DecidableEq

/-- Per-row section of the `validate_import_md` loop (lines 309-344), in
source order: the `filename` presence and blankness checks, then `dataset`,
then `project`.  Returns the first problem found, or `none` when the row
passes (each failing branch in the source logs one error, sets
`valid_md = False` and returns `False` immediately). -/
def checkRow (r : Row) : Option VErr :=
  match r.lookup "filename" with
  | none => some (VErr.missingColumn "filename")
  | some v =>
    if pyStr v = "" ∨ pyStr v = "nan" then some (VErr.emptyValue "filename")
    else
      match r.lookup "dataset" with
      | none => some (VErr.missingColumn "dataset")
      | some v =>
        if pyStr v = "" ∨ pyStr v = "nan" then some (VErr.emptyValue "dataset")
        else
          match r.lookup "project" with
          | none => some (VErr.missingColumn "project")
          | some v =>
            if pyStr v = "" ∨ pyStr v = "nan" then some (VErr.emptyValue "project")
            else none

/-- The `for filemd in self.md["file_metadata"]` loop: rows are checked in
table order and the first problem aborts the whole function. -/
def findRowError : List Row → Option VErr
  | [] => none
  | r :: rest =>
    match checkRow r with
    | some e => some e
    | none => findRowError rest

/-- Embedding of `ImportBatch.validate_import_md`
(src/jax_omeroutils/intake.py, lines 292-354).  The first component is the
returned boolean, which on every path coincides with the final value of
`self.valid_md`; the second component is the list of problems logged during
the call (the source logs at most one and returns).  The duplicate check
(lines 346-352) compares `len(set(file_list_md)) < len(file_list_md)` over
the raw `filename` values and only runs when every row passed. -/
def validate_import_md (md : List Row) : Bool × List VErr :=
  match findRowError md with
  | some e => (false, [e])
  | none =>
    let fl := md.map fun r => r.lookup "filename"
    if fl.dedup.length < fl.length then (false, [VErr.duplicateFilenames])
    else (true, [])

/-- Metadata table with two independent validity problems: row one has a
blank `project` cell, and the two later rows duplicate the filename "b". -/
def mdTwoProblems : List Row :=
  [[("filename", some "a"), ("dataset", some "d"), ("project", some "")],
   [("filename", some "b"), ("dataset", some "d"), ("project", some "p")],
   [("filename", some "b"), ("dataset", some "d"), ("project", some "p")]]

/-- One problem logged by `ImportBatch.load_targets`
(src/jax_omeroutils/intake.py, lines 356-374): the target file named by a
metadata row does not exist in the source directory, or the OMERO dry-run
probe rejected it.  The payload is the `filename` cell of the row. -/
inductive TErr where
  | targetMissing (f : Option String)
  | cannotImport (f : Option String)
deriving DecidableEq

/-- Embedding of `ImportBatch.load_targets`
(src/jax_omeroutils/intake.py, lines 356-374) in flat-file mode: the source
directory is its listing `dir`, and the external OMERO CLI format probe
(`ImportTarget.validate_target`) is the oracle `canImport`.  For each
metadata row in table order: if the named file is absent, an error is
logged and the row is skipped (`valid_target` stays `None`); if present,
the probe runs and the row is either appended to the accepted-target list
or logged as not importable.  `valid_md` is never touched here.  A row
whose `filename` cell is the NaN float would make the Python path
construction raise; it is totalized as a missing target. -/
def load_targets (dir : List String) (canImport : String → Bool) :
    List Row → List Row × List TErr
  | [] => ([], [])
  | r :: rest =>
    let acc := load_targets dir canImport rest
    match cell r "filename" with
    | none => (acc.1, TErr.targetMissing none :: acc.2)
    | some f =>
      if f ∈ dir then
        if canImport f then (r :: acc.1, acc.2)
        else (acc.1, TErr.cannotImport (some f) :: acc.2)
      else (acc.1, TErr.targetMissing (some f) :: acc.2)

/-- Metadata table listing only the file "a.tif". -/
def rowATif : Row := [("filename", some "a.tif"), ("project", some "P"), ("dataset", some "D")]

/-- Project node synthesized by `xml_editor.create_proj`; `dsRefs` embeds
the `dataset_ref` list of `DatasetRef` objects, each of which only carries
the id of a dataset node. -/
structure ProjNode where
  id : String
  name : Option String
  dsRefs : List String
deriving DecidableEq

/-- Dataset node synthesized by `xml_editor.create_dataset_and_ref`;
`imgRefs` embeds the `image_ref` list of `ImageRef` ids appended by
`move_images`. -/
structure DSNode where
  id : String
  name : Option String
  imgRefs : List String
deriving DecidableEq

/-- Screen node synthesized by `xml_editor.create_screen`. -/
structure ScreenNode where
  id : String
  name : Option String
deriving DecidableEq

/-- Key/value entry of a map annotation (class `M` of ome_types). -/
structure M where
  k : String
  value : String
deriving DecidableEq

/-- Element tree of a serialized annotation value, as traversed by
`get_image_ids` after `to_xml`: a tag (possibly namespace-qualified), the
text content, and the child elements.  Attributes are not represented
because `get_image_ids` never reads them. -/
inductive XTree where
  | node (tag : String) (text : String) (children : List XTree)

/-- Value of a structured annotation: either a key/value `Map` built by
`create_kv_and_ref`, or an externally produced value (for example the
transfer-preparation payload carrying `CLITransferServerPath` elements)
kept as its serialized element children. -/
inductive AnnValue where
  | mapv (ms : List M)
  | xmlv (children : List XTree)

/-- Structured annotation (source field `structured_annotations` of the
document); `ns` embeds the `namespace` attribute. -/
structure Ann where
  id : String
  ns : String
  value : AnnValue

/-- Image element of the document; `annRefs` embeds the `annotation_refs`
list of `AnnotationRef` ids. -/
structure Image where
  id : String
  annRefs : List String

/-- OME document as touched by the xml_editor functions: `anns` embeds the
`structured_annotations` list; plates and pixel data are not consulted by
the embedded functions and are omitted. -/
structure OME where
  projects : List ProjNode
  datasets : List DSNode
  screens : List ScreenNode
  images : List Image
  anns : List Ann

/-- Namespace constant `CURRENT_MD_NS` of src/jax_omeroutils/xml_editor.py. -/
def CURRENT_MD_NS : String := "jax.org/omeroutils/user_submitted/v0"

/-- Python set insertion `proj_ds[project].add(dataset)` modeled as a list
keeping first occurrences (CPython set iteration order is unspecified;
membership and cardinality do not depend on the order chosen). -/
def addToSet (s : List (Option String)) (d : Option String) : List (Option String) :=
  if d ∈ s then s else s ++ [d]

/-- Distinct values of a list in first-occurrence order (Python
`set(...)`). -/
def distinctVals (xs : List (Option String)) : List (Option String) :=
  xs.foldl addToSet []

/-- One step of building the `defaultdict(set)` keyed by project value:
keys keep insertion order (Python dicts are insertion-ordered). -/
def insertPD (acc : List (Option String × List (Option String)))
    (p d : Option String) : List (Option String × List (Option String)) :=
  match acc with
  | [] => [(p, [d])]
  | (q, s) :: rest =>
    if q = p then (q, addToSet s d) :: rest
    else (q, s) :: insertPD rest p d

/-- The grouping loop of `add_projects_datasets`
(src/jax_omeroutils/xml_editor.py, lines 45-47): `proj_ds` maps each
project value to the set of dataset values of its rows. -/
def buildProjDS (md : List Row) : List (Option String × List (Option String)) :=
  md.foldl (fun acc r => insertPD acc (cell r "project") (cell r "dataset")) []

/-- Inner loop over `proj_ds[project]` (lines 55-60): each dataset value
receives the next synthetic id `Dataset:<ds_count>`, the node is appended
to the document and a `DatasetRef` with the same id is collected for the
project; returns the nodes, the refs, and the advanced counter. -/
def mkDS : Nat → List (Option String) → List DSNode × List String × Nat
  | n, [] => ([], [], n)
  | n, d :: rest =>
    let node : DSNode := ⟨"Dataset:" ++ natStr n, d, []⟩
    let (ns2, rs, c) := mkDS (n + 1) rest
    (node :: ns2, node.id :: rs, c)

/-- Outer loop over `proj_ds.keys()` (lines 50-61): each project value
receives the next synthetic id `Project:<proj_count>`, its dataset nodes
are appended to the document and the project node (carrying the dataset
refs) is appended after them. -/
def addPDLoop : Nat → Nat → List (Option String × List (Option String)) → OME → OME
  | _, _, [], acc => acc
  | pc, dc, (p, dss) :: rest, acc =>
    let pr := mkDS dc dss
    let proj : ProjNode := ⟨"Project:" ++ natStr pc, p, pr.2.1⟩
    addPDLoop (pc + 1) pr.2.2 rest
      { acc with datasets := acc.datasets ++ pr.1, projects := acc.projects ++ [proj] }

/-- Embedding of `xml_editor.add_projects_datasets(ome, imp_json)`
(src/jax_omeroutils/xml_editor.py, lines 38-62).  The metadata list is
`imp_json["user_supplied_md"]["file_metadata"]`; the guard returns the
input document unchanged when the first row lacks a `project` or `dataset`
column; the Python `IndexError` raised on an empty metadata list is
totalized by returning the document.  Counters `proj_count` and `ds_count`
always restart at 1; existing nodes of the document are never examined. -/
def add_projects_datasets (ome : OME) (md : List Row) : OME :=
  match md with
  | [] => ome
  | r0 :: _ =>
    if (r0.lookup "project").isSome && (r0.lookup "dataset").isSome then
      addPDLoop 1 1 (buildProjDS md) ome
    else ome

/-- Call-level view of `add_projects_datasets`: the first component is the
value of the document of the caller after the call and the second the returned
document.  In the source the body deep-copies the argument (`newome =
copy.deepcopy(ome)`, line 39) and every mutation (`newome.datasets.append`,
`newome.projects.append`) targets the copy, so the document of the caller is
returned unchanged. -/
def add_projects_datasets_call (ome : OME) (md : List Row) : OME × OME :=
  (ome, add_projects_datasets ome md)

/-- Numbering loop of `add_screens` (lines 74-78). -/
def mkScreens : Nat → List (Option String) → List ScreenNode
  | _, [] => []
  | n, s :: rest => ⟨"Screen:" ++ natStr n, s⟩ :: mkScreens (n + 1) rest

/-- Embedding of `xml_editor.add_screens(ome, imp_json)`
(src/jax_omeroutils/xml_editor.py, lines 65-79): when the first row has a
`screen` column, one screen node per distinct screen value (Python
`list(set(screens))`, whose iteration order is unspecified; first-seen
order is chosen here) is appended with ids `Screen:1`, `Screen:2`, …. -/
def add_screens (ome : OME) (md : List Row) : OME :=
  match md with
  | [] => ome
  | r0 :: _ =>
    if (r0.lookup "screen").isSome then
      { ome with screens := ome.screens ++
          mkScreens 1 (distinctVals (md.map fun r => cell r "screen")) }
    else ome

/-- Call-level view of `add_screens`; mutations target the deep copy only. -/
def add_screens_call (ome : OME) (md : List Row) : OME × OME :=
  (ome, add_screens ome md)

/-- Python `s.rpartition("}")[2]`: the part of the tag after the last
closing brace, stripping the XML namespace. -/
def stripNS (s : String) : String :=
  String.mk ((splitOnChar '}' s.toList).getLastD s.toList)

/-- Children of the serialized annotation value, as iterated by
`for el in tree` after `ETree.fromstring(to_xml(...))`: a `Map` value
serializes to `M` child elements holding the value text (the key lives in
an attribute that `get_image_ids` never reads); an external value keeps
its own children. -/
def annChildren : AnnValue → List XTree
  | AnnValue.mapv ms => ms.map fun m => XTree.node "M" m.value []
  | AnnValue.xmlv cs => cs

def childIsPath (filename : String) (el2 : XTree) : Bool :=
  match el2 with
  | XTree.node t2 txt _ => stripNS t2 == "Path" && txt == filename

def elMatches (filename : String) (el : XTree) : Bool :=
  match el with
  | XTree.node tag _ children =>
    stripNS tag == "CLITransferServerPath" && children.any (childIsPath filename)

/-- Whether the serialized annotation value carries a
`CLITransferServerPath` element with a `Path` child whose text equals the
filename (src/jax_omeroutils/xml_editor.py, lines 205-214; the Python loop
may append the same annotation id several times, but the ids are only used
for membership tests, so one hit suffices). -/
def pathMatches (filename : String) (v : AnnValue) : Bool :=
  (annChildren v).any (elMatches filename)

/-- Embedding of `xml_editor.get_image_ids(filename, ome)`
(src/jax_omeroutils/xml_editor.py, lines 202-219): collect the ids of
annotations whose payload names the file, then emit one image id per
annotation ref of an image that is among the collected ids. -/
def get_image_ids (filename : String) (ome : OME) : List String :=
  let ann_ids := (ome.anns.filter fun a => pathMatches filename a.value).map Ann.id
  ome.images.flatMap fun img =>
    (img.annRefs.filter fun x => ann_ids.contains x).map fun _ => img.id

/-- Decimal digit of a character, if any. -/
def charDigit (c : Char) : Option Nat :=
  if '0' ≤ c ∧ c ≤ '9' then some (c.toNat - 48) else none

def parseNatAux : Nat → List Char → Option Nat
  | acc, [] => some acc
  | acc, c :: cs =>
    match charDigit c with
    | some d => parseNatAux (acc * 10 + d) cs
    | none => none

/-- Decimal parse of a nonempty digit string. -/
def parseNat : List Char → Option Nat
  | [] => none
  | cs => parseNatAux 0 cs

/-- Python `int(ann.id.split(":")[-1])` (src/jax_omeroutils/xml_editor.py,
line 103): the numeric tail of an annotation id.  Python raises
`ValueError` on a non-numeric tail (annotation ids in these documents are
always `Annotation:<n>`); totalized with 0. -/
def cleanIdNum (s : String) : Nat :=
  (parseNat ((splitOnChar ':' s.toList).getLastD s.toList)).getD 0

/-- The `max_ann` scan of `add_annotations_images` (lines 101-105): the
largest numeric annotation id already present in the document. -/
def maxAnnId (anns : List Ann) : Nat :=
  anns.foldl (fun m a => if cleanIdNum a.id > m then cleanIdNum a.id else m) 0

/-- Column names of a row (`line.keys()` of the Python dict). -/
def rowKeys (r : Row) : List String := r.map Prod.fst

/-- The `ann_dict` construction of `add_annotations_images` (lines
108-111): values of the non-structural columns (`project` and `dataset`
are removed from the column list beforehand, `filename` is popped), with
non-string values (NaN cells) dropped by the `isinstance(v, str)`
filter. -/
def annPairs (cols : List String) (r : Row) : List (String × String) :=
  (cols.filter fun k => k ≠ "filename").filterMap fun k =>
    match cell r k with
    | some s => some (k, s)
    | none => none

/-- The `mmap` construction (lines 115-120): `if _value:` keeps a nonempty
string and an empty string becomes `M(k, "")`. -/
def mkMs (pairs : List (String × String)) : List M :=
  pairs.map fun p => if p.2 ≠ "" then M.mk p.1 p.2 else M.mk p.1 ""

/-- The `for img in newome.images` loop (lines 113-127): every image whose
id is among `img_ids` receives a fresh `Annotation:<n>` map annotation
(appended to the document) and a ref to it; the counter advances once per
annotated image. -/
def annotateImages (ids : List String) (ms : List M) :
    Nat → List Image → List Image × List Ann × Nat
  | count, [] => ([], [], count)
  | count, img :: rest =>
    if ids.contains img.id then
      let annId := "Annotation:" ++ natStr count
      let pr := annotateImages ids ms (count + 1) rest
      ({ img with annRefs := img.annRefs ++ [annId] } :: pr.1,
        (⟨annId, CURRENT_MD_NS, AnnValue.mapv ms⟩ : Ann) :: pr.2.1, pr.2.2)
    else
      let pr := annotateImages ids ms count rest
      (img :: pr.1, pr.2.1, pr.2.2)

/-- Embedding of `xml_editor.add_annotations_images(ome, imp_json)`
(src/jax_omeroutils/xml_editor.py, lines 93-128).  Annotation ids start
one past the maximum existing id; for every metadata row, the images
matched through `get_image_ids(filename, ome)` — looked up in the ORIGINAL
input document, exactly as in the source — are annotated in the evolving
copy.  The `IndexError` on an empty metadata list is totalized by
returning the document; a NaN `filename` (which would make the Python
string comparison silently fail) matches no image. -/
def add_annotations_images (ome : OME) (md : List Row) : OME :=
  match md with
  | [] => ome
  | r0 :: _ =>
    let cols := (rowKeys r0).filter fun k => k ≠ "project" && k ≠ "dataset"
    let step := fun (st : Nat × OME) (r : Row) =>
      let ids := match cell r "filename" with
        | some s => get_image_ids s ome
        | none => []
      let ms := mkMs (annPairs cols r)
      let pr := annotateImages ids ms st.1 st.2.images
      (pr.2.2, { st.2 with images := pr.1, anns := st.2.anns ++ pr.2.1 })
    (md.foldl step (maxAnnId ome.anns + 1, ome)).2

/-- Call-level view of `add_annotations_images`; mutations target the deep
copy only, while `get_image_ids` reads the document of the caller. -/
def add_annotations_images_call (ome : OME) (md : List Row) : OME × OME :=
  (ome, add_annotations_images ome md)

/-- The `right_ds` collection of `move_images` (lines 184-190): ids of
dataset nodes that are referenced by a project node named like the project
value of the row and are themselves named like the dataset value of the
row. -/
def rightDS (projname dsname : Option String)
    (projs : List ProjNode) (dss : List DSNode) : List String :=
  projs.flatMap fun proj =>
    if proj.name = projname then
      proj.dsRefs.flatMap fun rid =>
        (dss.filter fun ds => rid == ds.id && ds.name == dsname).map DSNode.id
    else []

/-- Embedding of `xml_editor.move_images(ome, imp_json)`
(src/jax_omeroutils/xml_editor.py, lines 178-199): for every metadata row,
each dataset in `right_ds` receives one `ImageRef` per image id matched by
`get_image_ids(filename, newome)` (here the lookup uses the evolving
copy, as in the source). -/
def move_images (ome : OME) (md : List Row) : OME :=
  md.foldl (fun acc r =>
    let right := rightDS (cell r "project") (cell r "dataset") acc.projects acc.datasets
    let ids := match cell r "filename" with
      | some s => get_image_ids s acc
      | none => []
    { acc with datasets := acc.datasets.map fun ds =>
        if right.contains ds.id then { ds with imgRefs := ds.imgRefs ++ ids } else ds }) ome

/-- Call-level view of `move_images`; mutations target the deep copy
only. -/
def move_images_call (ome : OME) (md : List Row) : OME × OME :=
  (ome, move_images ome md)

/-- Document with no nodes at all (a fresh, empty OME document). -/
def omeEmpty : OME := ⟨[], [], [], [], []⟩

/-- Single metadata row with project "P" and dataset "D". -/
def rowPD : Row :=
  [("filename", some "a.tif"), ("project", some "P"), ("dataset", some "D")]

theorem observesFrom_iff (hash : Content → Nat) (attempt : Nat → Outcome)
    (srcC : Content) (fuel : Nat) :
    ∀ i, observesFrom hash attempt srcC i fuel = true ↔
      ∃ j, j < fuel ∧ ∃ c, attempt (i + j) = Outcome.copied c ∧ hash c = hash srcC := by
  induction fuel with
  | zero =>
    intro i
    simp [observesFrom]
  | succ n ih =>
    intro i
    simp only [observesFrom, Bool.or_eq_true, ih (i + 1)]
    constructor
    · rintro (h | ⟨j, hj, c, hc, hh⟩)
      · refine ⟨0, Nat.succ_pos n, ?_⟩
        unfold digestMatch at h
        cases hac : attempt i with
        | noDir => rw [hac] at h; exact absurd h (by simp)
        | copied c =>
          rw [hac] at h
          exact ⟨c, by simpa using hac, by simpa using h⟩
      · exact ⟨j + 1, by omega, c, by rwa [show i + (j + 1) = i + 1 + j by omega], hh⟩
    · rintro ⟨j, hj, c, hc, hh⟩
      cases j with
      | zero =>
        left
        unfold digestMatch
        rw [show i + 0 = i by omega] at hc
        rw [hc]
        simpa using hh
      | succ j =>
        right
        exact ⟨j, by omega, c, by rwa [show i + 1 + j = i + (j + 1) by omega], hh⟩

theorem moveLoop_spec (hash : Content → Nat) (attempt : Nat → Outcome)
    (fname ddir : String) (srcC : Content) (fuel : Nat) :
    ∀ i s,
      ((moveLoop hash attempt fname ddir srcC i fuel s).2.src =
        if observesFrom hash attempt srcC i fuel then none else s.src) ∧
      ((moveLoop hash attempt fname ddir srcC i fuel s).1 = none ↔
        observesFrom hash attempt srcC i fuel = false) := by
  induction fuel with
  | zero =>
    intro i s
    simp [moveLoop, observesFrom]
  | succ n ih =>
    intro i s
    cases hac : attempt i with
    | noDir =>
      have hm : digestMatch hash attempt srcC i = false := by
        unfold digestMatch; rw [hac]
      constructor
      · simp only [moveLoop, hac, observesFrom, hm, Bool.false_or]
        exact (ih (i + 1) s).1
      · simp only [moveLoop, hac, observesFrom, hm, Bool.false_or]
        exact (ih (i + 1) s).2
    | copied c =>
      by_cases hh : hash c = hash srcC
      · have hm : digestMatch hash attempt srcC i = true := by
          unfold digestMatch; rw [hac]; simpa using hh
        constructor
        · simp [moveLoop, hac, observesFrom, hm, hh]
        · simp [moveLoop, hac, observesFrom, hm, hh]
      · have hm : digestMatch hash attempt srcC i = false := by
          unfold digestMatch; rw [hac]; simpa using hh
        constructor
        · simp only [moveLoop, hac, observesFrom, hm, Bool.false_or, if_neg hh]
          exact (ih (i + 1) { s with dest := none }).1
        · simp only [moveLoop, hac, observesFrom, hm, Bool.false_or, if_neg hh]
          exact (ih (i + 1) { s with dest := none }).2

/-- Claim C1: for an existing source file, `file_mover` deletes the source
file if and only if some copy attempt among the at-most-`tries` attempts
delivered a destination copy with an md5 digest equal to the digest of the
source; when no attempt matches, the function returns the sentinel `None`
and the source file still exists with unchanged contents. -/
theorem file_mover_deletes_iff_digest_match (hash : Content → Nat)
    (attempt : Nat → Outcome) (fname ddir : String) (srcC : Content)
    (dest0 : Option Content) (tries : Nat) :
    ((file_mover hash attempt fname ddir ⟨some srcC, dest0⟩ tries).2.src = none ↔
      ∃ i, i < tries ∧ ∃ c, attempt i = Outcome.copied c ∧ hash c = hash srcC) ∧
    ((file_mover hash attempt fname ddir ⟨some srcC, dest0⟩ tries).1 = none ↔
      ¬ ∃ i, i < tries ∧ ∃ c, attempt i = Outcome.copied c ∧ hash c = hash srcC) ∧
    ((file_mover hash attempt fname ddir ⟨some srcC, dest0⟩ tries).2.src = none ∨
      (file_mover hash attempt fname ddir ⟨some srcC, dest0⟩ tries).2.src = some srcC) := by
  have hsp := moveLoop_spec hash attempt fname ddir srcC tries 0 ⟨some srcC, dest0⟩
  have hiff := observesFrom_iff hash attempt srcC tries 0
  simp only [Nat.zero_add] at hiff
  have hfm : file_mover hash attempt fname ddir ⟨some srcC, dest0⟩ tries =
      moveLoop hash attempt fname ddir srcC 0 tries ⟨some srcC, dest0⟩ := rfl
  rw [hfm]
  refine ⟨?_, ?_, ?_⟩
  · rw [hsp.1]
    by_cases hobs : observesFrom hash attempt srcC 0 tries = true
    · simp only [hobs, if_true]
      exact iff_of_true trivial (hiff.mp hobs)
    · simp only [hobs, if_false]
      constructor
      · intro h; exact absurd h (by simp)
      · intro h; exact absurd (hiff.mpr h) hobs
  · rw [hsp.2]
    constructor
    · intro h hex
      rw [hiff.mpr hex] at h
      exact absurd h (by simp)
    · intro hex
      by_cases hobs : observesFrom hash attempt srcC 0 tries = true
      · exact absurd (hiff.mp hobs) hex
      · simpa using hobs
  · rw [hsp.1]
    by_cases hobs : observesFrom hash attempt srcC 0 tries = true
    · simp [hobs]
    · simp [hobs]

theorem targetsLoop_filter (ts : List Row) :
    (targetsLoop ts).filter isTargetE = targetsLoop ts ∧
    (targetsLoop ts).filter isAuxE = [] := by
  induction ts with
  | nil => simp [targetsLoop]
  | cons t rest ih =>
    simp [targetsLoop, List.filter, isTargetE, isAuxE, ih.1, ih.2]

theorem auxLoop_filter (ls : List String) :
    (auxLoop ls).filter isTargetE = [] ∧
    (auxLoop ls).filter isAuxE = auxLoop ls := by
  induction ls with
  | nil => simp [auxLoop]
  | cons l rest ih =>
    by_cases h : pathSuffix l.trim = ".log" ∨ pathSuffix l.trim = ".xlsx"
    · simpa [auxLoop, h] using ih
    · simp [auxLoop, h, List.filter, isTargetE, isAuxE, ih.1, ih.2]

/-- Claim C7: within one batch, `move_data` attempts every primary
target move (in metadata table order) before any auxiliary fileset
move, and moves the `import.json` manifest last: the trace of move attempts
is exactly the target moves, followed by the auxiliary moves, followed by
the single manifest move, so the manifest move is the final attempt. -/
theorem move_data_targets_before_aux_before_manifest
    (impTargets : List Row) (filesetList : List String) :
    move_trace impTargets filesetList =
      (move_trace impTargets filesetList).filter isTargetE ++
      (move_trace impTargets filesetList).filter isAuxE ++ [MoveEvent.manifestMove] ∧
    (move_trace impTargets filesetList).getLast? = some MoveEvent.manifestMove := by
  constructor
  · unfold move_trace
    simp only [List.filter_append, (targetsLoop_filter impTargets).1,
      (targetsLoop_filter impTargets).2, (auxLoop_filter filesetList).1,
      (auxLoop_filter filesetList).2, List.nil_append, List.append_nil]
    simp [List.filter, isTargetE, isAuxE]
  · unfold move_trace
    rw [List.getLast?_append_of_ne_nil _ (by simp)]
    rfl

/-- Claim C10: `find_md_file` returns the unique top-level entry whose
suffix ends with "xlsx" when exactly one such entry exists and `None`
(without raising) otherwise, and `load_md_from_file` maps a `None` path to
`None` rather than raising. -/
theorem find_md_file_unique_or_none (entries : List String) :
    (find_md_file entries =
      if (entries.filter fun f => strEndsWith (pathSuffix f) "xlsx").length = 1
      then (entries.filter fun f => strEndsWith (pathSuffix f) "xlsx").head?
      else none) ∧
    load_md_from_file none = LoadOutcome.retNone := by
  refine ⟨?_, rfl⟩
  unfold find_md_file
  by_cases h0 : (entries.filter fun f => strEndsWith (pathSuffix f) "xlsx").length = 0
  · simp [h0]
  · by_cases h1 : 1 < (entries.filter fun f => strEndsWith (pathSuffix f) "xlsx").length
    · rw [if_neg h0, if_pos h1, if_neg (by omega)]
    · rw [if_neg h0, if_neg h1, if_pos (by omega)]

/-- Counterexample to claim C4: existing metadata files with the
extensions `tsv` and `xls` are rejected by `load_md_from_file` with a
raised `ValueError` — the extension gate accepts only `.xlsx`, not the set
claimed by the specification. -/
theorem load_md_rejects_xls_and_tsv :
    load_md_from_file (some ⟨"metadata.tsv", true⟩) = LoadOutcome.errValue ∧
    load_md_from_file (some ⟨"metadata.xls", true⟩) = LoadOutcome.errValue := by
  decide

/-- Claim C4 as amended: for every existing file, `load_md_from_file`
raises an extension error (a `ValueError`, the only format-error raise in
the function) exactly when the file suffix differs from ".xlsx"; `xls` and
`tsv` files are rejected like any other non-xlsx extension. -/
theorem load_md_extension_gate (fi : PFile) (hp : fi.present = true) :
    load_md_from_file (some fi) = LoadOutcome.errValue ↔ pathSuffix fi.name ≠ ".xlsx" := by
  by_cases hs : pathSuffix fi.name = ".xlsx"
  · simp [load_md_from_file, hp, hs]
  · simp [load_md_from_file, hp, hs]

theorem load_md_extension_gate_witness :
    load_md_from_file (some ⟨"form.tsv", true⟩) = LoadOutcome.errValue :=
  (load_md_extension_gate ⟨"form.tsv", true⟩ rfl).mpr (by decide)

theorem findRowError_none_of_all (md : List Row)
    (h : ∀ r ∈ md, checkRow r = none) : findRowError md = none := by
  induction md with
  | nil => rfl
  | cons r rest ih =>
    have hr := h r (by simp)
    simp only [findRowError, hr]
    exact ih fun x hx => h x (by simp [hx])

/-- Claim C6: a metadata table whose rows all pass the per-row checks but
in which two distinct rows carry the same `filename` value is marked
invalid: `validate_import_md` sets `valid_md` to `False` and returns
`False` (with the duplicate-filenames cause), regardless of the other
rows. -/
theorem validate_import_md_duplicate_invalid (md : List Row)
    (i j : Nat) (hi : i < md.length) (hj : j < md.length) (hij : i ≠ j)
    (hrows : ∀ r ∈ md, checkRow r = none)
    (hdup : (md.get ⟨i, hi⟩).lookup "filename" = (md.get ⟨j, hj⟩).lookup "filename") :
    validate_import_md md = (false, [VErr.duplicateFilenames]) := by
  have hre := findRowError_none_of_all md hrows
  have hlen : (md.map fun r => r.lookup "filename").length = md.length := by
    simp
  have hnodup : ¬ (md.map fun r => r.lookup "filename").Nodup := by
    intro hnd
    have hinj := List.nodup_iff_injective_get.mp hnd
    have hgi : (md.map fun r => r.lookup "filename").get ⟨i, by omega⟩ =
        (md.get ⟨i, hi⟩).lookup "filename" := by
      simp
    have hgj : (md.map fun r => r.lookup "filename").get ⟨j, by omega⟩ =
        (md.get ⟨j, hj⟩).lookup "filename" := by
      simp
    have heq : (md.map fun r => r.lookup "filename").get ⟨i, by omega⟩ =
        (md.map fun r => r.lookup "filename").get ⟨j, by omega⟩ := by
      rw [hgi, hgj]; exact hdup
    have := hinj heq
    exact hij (by simpa using this)
  have hne : (md.map fun r => r.lookup "filename").dedup ≠
      (md.map fun r => r.lookup "filename") := by
    intro h
    exact hnodup (h ▸ List.nodup_dedup _)
  have hle := (List.dedup_sublist (md.map fun r => r.lookup "filename")).length_le
  have hlt : (md.map fun r => r.lookup "filename").dedup.length <
      (md.map fun r => r.lookup "filename").length := by
    rcases Nat.lt_or_ge (md.map fun r => r.lookup "filename").dedup.length
        (md.map fun r => r.lookup "filename").length with h | h
    · exact h
    · exact absurd ((List.dedup_sublist _).eq_of_length (by omega)) hne
  simp only [validate_import_md, hre]
  rw [if_pos hlt]

theorem validate_import_md_duplicate_invalid_witness :
    validate_import_md
      [[("filename", some "a"), ("dataset", some "d"), ("project", some "p")],
       [("filename", some "a"), ("dataset", some "d"), ("project", some "p")]] =
      (false, [VErr.duplicateFilenames]) :=
  validate_import_md_duplicate_invalid
    [[("filename", some "a"), ("dataset", some "d"), ("project", some "p")],
     [("filename", some "a"), ("dataset", some "d"), ("project", some "p")]]
    0 1 (by decide) (by decide) (by decide) (by decide) (by decide)

/-- Counterexample to claim C3: on a table containing both a blank required
cell and a duplicate filename, `validate_import_md` reports only the first
cause (the blank `project` cell) and returns immediately; the
duplicate-filename cause, although present in the input (third conjunct),
is never reported. -/
theorem validate_import_md_first_cause_only :
    validate_import_md mdTwoProblems = (false, [VErr.emptyValue "project"]) ∧
    VErr.duplicateFilenames ∉ (validate_import_md mdTwoProblems).2 ∧
    (mdTwoProblems.map fun r => r.lookup "filename").dedup.length <
      (mdTwoProblems.map fun r => r.lookup "filename").length := by
  decide

/-- Claim C3 as amended: batch validation short-circuits: it reports at
most one cause per call — the first failing check (checked per row in order
filename, dataset, project, rows in table order) — returning `False` at
once, and the duplicate-filename check runs only when every per-row check
passed; the returned boolean is `True` exactly when no cause was
reported. -/
theorem validate_import_md_at_most_one_cause (md : List Row) :
    (validate_import_md md).2.length ≤ 1 ∧
    ((validate_import_md md).1 = true ↔ (validate_import_md md).2 = []) := by
  unfold validate_import_md
  cases h : findRowError md with
  | some e => simp
  | none =>
    split
    · simp
    · simp only [List.length_map]
      split
      · simp
      · simp

/-- Counterexample to claim C5: with source directory listing
`["a.tif", "b.tif"]` and a metadata table listing only `a.tif`, no
component of validation reports `b.tif` as a file without metadata and the
batch is not marked invalid: `validate_import_md` returns `True` with no
reported cause, and `load_targets` accepts the single row with no logged
problem.  The code never compares the directory listing against the
metadata in that direction. -/
theorem no_file_without_metadata_check :
    validate_import_md [rowATif] = (true, []) ∧
    load_targets ["a.tif", "b.tif"] (fun _ => true) [rowATif] = ([rowATif], []) := by
  decide

/-- Claim C5 as amended: the directory listing is only consulted in the
metadata-to-files direction: every problem `load_targets` can report
concerns the `filename` cell of some metadata row (a row whose file is
missing is logged and skipped without invalidating the batch); a file
present in the source directory with no corresponding metadata row is
never reported. -/
theorem load_targets_reports_only_metadata_rows (dir : List String)
    (canImport : String → Bool) (md : List Row) (e : TErr)
    (he : e ∈ (load_targets dir canImport md).2) :
    ∃ r ∈ md, e = TErr.targetMissing (cell r "filename") ∨
      e = TErr.cannotImport (cell r "filename") := by
  induction md with
  | nil => simp [load_targets] at he
  | cons r rest ih =>
    cases hc : cell r "filename" with
    | none =>
      simp only [load_targets, hc] at he
      rcases List.mem_cons.mp he with h | h
      · exact ⟨r, by simp, Or.inl (by rw [h, hc])⟩
      · obtain ⟨r0, hr0, hor⟩ := ih h
        exact ⟨r0, by simp [hr0], hor⟩
    | some f =>
      by_cases hin : f ∈ dir
      · by_cases hci : canImport f = true
        · simp only [load_targets, hc, if_pos hin, hci, if_true] at he
          obtain ⟨r0, hr0, hor⟩ := ih he
          exact ⟨r0, by simp [hr0], hor⟩
        · simp only [load_targets, hc, if_pos hin, hci, if_false] at he
          rcases List.mem_cons.mp he with h | h
          · exact ⟨r, by simp, Or.inr (by rw [h, hc])⟩
          · obtain ⟨r0, hr0, hor⟩ := ih h
            exact ⟨r0, by simp [hr0], hor⟩
      · simp only [load_targets, hc, if_neg hin] at he
        rcases List.mem_cons.mp he with h | h
        · exact ⟨r, by simp, Or.inl (by rw [h, hc])⟩
        · obtain ⟨r0, hr0, hor⟩ := ih h
          exact ⟨r0, by simp [hr0], hor⟩

theorem load_targets_reports_only_metadata_rows_witness :
    ∃ r ∈ [rowATif], TErr.targetMissing (some "a.tif") = TErr.targetMissing (cell r "filename") ∨
      TErr.targetMissing (some "a.tif") = TErr.cannotImport (cell r "filename") :=
  load_targets_reports_only_metadata_rows [] (fun _ => true) [rowATif]
    (TErr.targetMissing (some "a.tif")) (by decide)

/-- Claim C9: every embedded graph-building transition (adding
projects/datasets, adding screens, adding image annotations, linking
images into datasets) is a pure transformation: the document of the caller is
unchanged after the call — in the source each function deep-copies its
argument and mutates only the copy. -/
theorem graph_builders_leave_input_unchanged (ome : OME) (md : List Row) :
    (add_projects_datasets_call ome md).1 = ome ∧
    (add_screens_call ome md).1 = ome ∧
    (add_annotations_images_call ome md).1 = ome ∧
    (move_images_call ome md).1 = ome :=
  ⟨rfl, rfl, rfl, rfl⟩

/-- Counterexample to claim C2: applying `add_projects_datasets` a second
time with identical metadata, starting from the document produced by the
first application, duplicates the nodes instead of matching the
pre-existing ones by name: the first application of the one-row table
creates one project and one dataset node, the second application creates a
second project and a second dataset node with the same names. -/
theorem add_projects_datasets_not_idempotent :
    (add_projects_datasets omeEmpty [rowPD]).projects.length = 1 ∧
    (add_projects_datasets omeEmpty [rowPD]).datasets.length = 1 ∧
    (add_projects_datasets (add_projects_datasets omeEmpty [rowPD]) [rowPD]).projects.length = 2 ∧
    (add_projects_datasets (add_projects_datasets omeEmpty [rowPD]) [rowPD]).datasets.length = 2 := by
  decide

theorem mkDS_length (dss : List (Option String)) :
    ∀ n, ((mkDS n dss).1).length = dss.length := by
  induction dss with
  | nil => intro n; rfl
  | cons d rest ih =>
    intro n
    simp only [mkDS, List.length_cons]
    rw [ih (n + 1)]

theorem addPDLoop_counts (groups : List (Option String × List (Option String))) :
    ∀ pc dc acc,
      ((addPDLoop pc dc groups acc).projects.length =
        acc.projects.length + groups.length) ∧
      ((addPDLoop pc dc groups acc).datasets.length =
        acc.datasets.length + (groups.map fun g => g.2.length).sum) := by
  induction groups with
  | nil =>
    intro pc dc acc
    simp [addPDLoop]
  | cons g rest ih =>
    intro pc dc acc
    obtain ⟨p, dss⟩ := g
    have h := ih (pc + 1) (mkDS dc dss).2.2
      { acc with datasets := acc.datasets ++ (mkDS dc dss).1,
                 projects := acc.projects ++
                   [⟨"Project:" ++ natStr pc, p, (mkDS dc dss).2.1⟩] }
    constructor
    · simp only [addPDLoop]
      rw [h.1]
      simp only [List.length_append, List.length_cons, List.length_nil, List.length_map]
      omega
    · simp only [addPDLoop]
      rw [h.2]
      simp only [List.length_append, List.map_cons, List.sum_cons, mkDS_length]
      omega

/-- Claim C2 as amended: `add_projects_datasets` never matches pre-existing
nodes by name: whenever the first row carries the `project` and `dataset`
columns, a second application with identical metadata appends one fresh
project node per grouped project value and one fresh dataset node per
grouped (project, dataset) value again (counters restarting at
`Project:1`/`Dataset:1`), so the node counts strictly grow instead of
staying equal. -/
theorem add_projects_datasets_appends_again (ome : OME) (r0 : Row) (rest : List Row)
    (hp : (r0.lookup "project").isSome = true)
    (hd : (r0.lookup "dataset").isSome = true) :
    ((add_projects_datasets (add_projects_datasets ome (r0 :: rest)) (r0 :: rest)).projects.length =
      (add_projects_datasets ome (r0 :: rest)).projects.length +
        (buildProjDS (r0 :: rest)).length) ∧
    ((add_projects_datasets (add_projects_datasets ome (r0 :: rest)) (r0 :: rest)).datasets.length =
      (add_projects_datasets ome (r0 :: rest)).datasets.length +
        ((buildProjDS (r0 :: rest)).map fun g => g.2.length).sum) := by
  have hguard : ((r0.lookup "project").isSome && (r0.lookup "dataset").isSome) = true := by
    rw [hp, hd]; rfl
  have hout : ∀ o : OME, add_projects_datasets o (r0 :: rest) =
      addPDLoop 1 1 (buildProjDS (r0 :: rest)) o := by
    intro o
    simp [add_projects_datasets, hguard]
  rw [hout, hout]
  exact ⟨(addPDLoop_counts (buildProjDS (r0 :: rest)) 1 1 _).1,
    (addPDLoop_counts (buildProjDS (r0 :: rest)) 1 1 _).2⟩

theorem add_projects_datasets_appends_again_witness :
    ((add_projects_datasets (add_projects_datasets omeEmpty [rowPD]) [rowPD]).projects.length =
      (add_projects_datasets omeEmpty [rowPD]).projects.length +
        (buildProjDS [rowPD]).length) ∧
    ((add_projects_datasets (add_projects_datasets omeEmpty [rowPD]) [rowPD]).datasets.length =
      (add_projects_datasets omeEmpty [rowPD]).datasets.length +
        ((buildProjDS [rowPD]).map fun g => g.2.length).sum) :=
  add_projects_datasets_appends_again omeEmpty rowPD [] (by decide) (by decide)

theorem insertPD_same (k d : Option String) (s : List (Option String))
    (acc : List (Option String × List (Option String))) (h : acc = [(k, s)]) :
    insertPD acc k d = [(k, addToSet s d)] := by
  subst h
  simp [insertPD]

theorem buildPD_const_loop (k : Option String) (md : List Row)
    (h : ∀ r ∈ md, cell r "project" = k) :
    ∀ s, md.foldl (fun acc r => insertPD acc (cell r "project") (cell r "dataset")) [(k, s)] =
      [(k, md.foldl (fun s2 r => addToSet s2 (cell r "dataset")) s)] := by
  induction md with
  | nil => intro s; rfl
  | cons r rest ih =>
    intro s
    have hr := h r (by simp)
    simp only [List.foldl_cons, hr]
    rw [insertPD_same k (cell r "dataset") s [(k, s)] rfl]
    exact ih (fun x hx => h x (by simp [hx])) (addToSet s (cell r "dataset"))

theorem buildProjDS_const (k : Option String) (r0 : Row) (rest : List Row)
    (h : ∀ r ∈ r0 :: rest, cell r "project" = k) :
    buildProjDS (r0 :: rest) =
      [(k, distinctVals ((r0 :: rest).map fun r => cell r "dataset"))] := by
  have hr0 := h r0 (by simp)
  unfold buildProjDS distinctVals
  simp only [List.foldl_cons, List.map_cons, hr0]
  have h1 : insertPD [] k (cell r0 "dataset") = [(k, [cell r0 "dataset"])] := by
    simp [insertPD]
  have h2 : addToSet [] (cell r0 "dataset") = [cell r0 "dataset"] := by
    simp [addToSet]
  rw [h1, h2, buildPD_const_loop k rest (fun x hx => h x (by simp [hx]))]
  rw [List.foldl_map]

/-- Claim C8: on a document with no project and no dataset nodes, a
metadata table whose rows all share one project name and carry exactly two
distinct dataset values produces exactly one project node and exactly two
dataset nodes, and the single project node references both dataset nodes
(its `dataset_ref` list is exactly the ids of the two dataset nodes). -/
theorem one_project_two_datasets (p d1 d2 : String) (ome : OME)
    (r0 : Row) (rest : List Row)
    (hproj : ∀ r ∈ r0 :: rest, cell r "project" = some p)
    (hds : distinctVals ((r0 :: rest).map fun r => cell r "dataset") =
      [some d1, some d2])
    (hdk : (r0.lookup "dataset").isSome = true)
    (hpe : ome.projects = []) (hde : ome.datasets = []) :
    (add_projects_datasets ome (r0 :: rest)).projects =
      [⟨"Project:1", some p,
        (add_projects_datasets ome (r0 :: rest)).datasets.map DSNode.id⟩] ∧
    (add_projects_datasets ome (r0 :: rest)).datasets.map DSNode.name =
      [some d1, some d2] := by
  have hp0 : (r0.lookup "project").isSome = true := by
    have := hproj r0 (by simp)
    unfold cell at this
    cases hq : r0.lookup "project" with
    | none => rw [hq] at this; exact absurd this (by simp)
    | some v => rfl
  have hguard : ((r0.lookup "project").isSome && (r0.lookup "dataset").isSome) = true := by
    rw [hp0, hdk]; rfl
  have hout : add_projects_datasets ome (r0 :: rest) =
      addPDLoop 1 1 (buildProjDS (r0 :: rest)) ome := by
    simp [add_projects_datasets, hguard]
  have hb := buildProjDS_const (some p) r0 rest hproj
  rw [hds] at hb
  have hcomp : addPDLoop 1 1 [(some p, [some d1, some d2])] ome =
      { ome with
        projects := ome.projects ++ [⟨"Project:1", some p, ["Dataset:1", "Dataset:2"]⟩],
        datasets := ome.datasets ++
          [⟨"Dataset:1", some d1, []⟩, ⟨"Dataset:2", some d2, []⟩] } := rfl
  rw [hout, hb, hcomp]
  constructor
  · simp [hpe, hde]
  · simp [hde]

theorem one_project_two_datasets_witness :
    (add_projects_datasets omeEmpty
      [[("filename", some "x.tif"), ("project", some "Imaging"), ("dataset", some "D1")],
       [("filename", some "y.tif"), ("project", some "Imaging"), ("dataset", some "D2")]]).projects =
      [⟨"Project:1", some "Imaging",
        (add_projects_datasets omeEmpty
          [[("filename", some "x.tif"), ("project", some "Imaging"), ("dataset", some "D1")],
           [("filename", some "y.tif"), ("project", some "Imaging"), ("dataset", some "D2")]]).datasets.map
          DSNode.id⟩] ∧
    (add_projects_datasets omeEmpty
      [[("filename", some "x.tif"), ("project", some "Imaging"), ("dataset", some "D1")],
       [("filename", some "y.tif"), ("project", some "Imaging"), ("dataset", some "D2")]]).datasets.map
      DSNode.name = [some "D1", some "D2"] :=
  one_project_two_datasets "Imaging" "D1" "D2" omeEmpty
    [("filename", some "x.tif"), ("project", some "Imaging"), ("dataset", some "D1")]
    [[("filename", some "y.tif"), ("project", some "Imaging"), ("dataset", some "D2")]]
    (by decide) (by decide) (by decide) rfl rfl
